import Mathlib

/-!
Shallow embedding of the core of the etL-data-cleaning-pipeline repository:
the field validators and row cleaner of `src/cleaner.py`, the aggregate
analyzer of `src/analyzer.py`, and the drop-rate / severity grading step of
`src/main.py` (`run_pipeline_async`, lines 255-262).

Python strings are modelled as Lean `String` (operated on through their
`List Char` data); ASCII semantics of `str.strip`, `str.lower` and the
regex character classes are embedded explicitly.  Pandas cell values are
modelled by the inductive `Value` (string / rational number / timestamp /
null, where `null` stands for both `None` and `NaN`).  A `DataFrame` is a
column-name list together with a list of rows, each row a list of cells.
Fallible stages return `Except`.
-/

namespace EtlPipeline

/-! ## Character helpers (ASCII semantics of the Python string methods) -/

/-- Whitespace characters stripped by Python `str.strip()` (ASCII part). -/
def isWs (c : Char) : Bool :=
  c = ' ' || c = '\t' || c = '\n' || c = '\r' || c = '\x0b' || c = '\x0c'

/-- `str.lower()` on an ASCII character: map `A`-`Z` (codes 65-90) to
`a`-`z` (codes 97-122), leave everything else unchanged. -/
def lowerChar (c : Char) : Char :=
  if h : 65 ≤ c.toNat ∧ c.toNat ≤ 90 then
    ⟨UInt32.ofNat (c.toNat + 32), by
      have : (UInt32.ofNat (c.toNat + 32)).toNat = (c.toNat + 32) % 2 ^ 32 :=
        UInt32.toNat_ofNat _
      refine Or.inl ?_
      have hlt : (c.toNat + 32) % 2 ^ 32 = c.toNat + 32 := Nat.mod_eq_of_lt (by omega)
      simp only [UInt32.isValidChar, Nat.isValidChar, this, hlt]
      omega⟩
  else c

/-- The regex class `[A-Za-z]`. -/
def isAsciiLetter (c : Char) : Bool :=
  (65 ≤ c.toNat && c.toNat ≤ 90) || (97 ≤ c.toNat && c.toNat ≤ 122)

/-- The regex class `[0-9]` (also Python `str.isdigit` on ASCII input). -/
def isAsciiDigit (c : Char) : Bool :=
  48 ≤ c.toNat && c.toNat ≤ 57

/-- Python `str.strip()`: drop whitespace from both ends. -/
def stripCore (l : List Char) : List Char :=
  ((l.dropWhile isWs).reverse.dropWhile isWs).reverse

/-- Numeric value of a digit string (most significant digit first). -/
def digitsToNat (l : List Char) : Nat :=
  l.foldl (fun n c => 10 * n + (c.toNat - 48)) 0

/-- Column-name normalization from `clean_data`
(`df.columns.str.strip().str.lower().str.replace(" ", "_")`). -/
def normColName (s : String) : String :=
  ⟨((stripCore s.data).map lowerChar).map (fun c => if c = ' ' then '_' else c)⟩

/-! ## Cell values -/

/-- The result of `pd.to_datetime`: either a parsed calendar date or a
numeric epoch offset (`pd.to_datetime` accepts raw numbers). -/
inductive Timestamp where
  | ofDate (y m d : Nat)
  | ofEpoch (q : ℚ)
deriving DecidableEq, Repr

/-- A raw pandas cell: a string, a number, a timestamp, or null
(`None`/`NaN` are identified). -/
inductive Value where
  | str (s : String)
  | num (q : ℚ)
  | date (t : Timestamp)
  | null
deriving DecidableEq, Repr

/-! ## Field validators (`src/cleaner.py` lines 15-68) -/

/-- The regex class `[A-Za-z0-9._%+-]` (local part of an email). -/
def isLocalChar (c : Char) : Bool :=
  isAsciiLetter c || isAsciiDigit c || c = '.' || c = '_' || c = '%' || c = '+' || c = '-'

/-- The regex class `[A-Za-z0-9.-]` (domain of an email). -/
def isDomainChar (c : Char) : Bool :=
  isAsciiLetter c || isAsciiDigit c || c = '.' || c = '-'

/-- Matching of the domain against `[A-Za-z0-9.-]+\.[A-Za-z]\x7b2,\x7d$`:
the trailing run of letters is the only candidate for the final label (a
dot is not a letter), so the string matches iff that run has length at
least 2, is preceded by a dot, and the dot is preceded by a non-empty run
of domain characters. -/
def domainOk (d : List Char) : Bool :=
  let r := d.reverse
  decide (2 ≤ (r.takeWhile isAsciiLetter).length) &&
    match r.dropWhile isAsciiLetter with
    | '.' :: rest => !rest.isEmpty && rest.all isDomainChar
    | _ => false

/-- Anchored matching of
`^[A-Za-z0-9._%+-]+@[A-Za-z0-9.-]+\.[A-Za-z]\x7b2,\x7d$`: neither character
class contains `@`, so the local part is exactly the maximal leading run of
local characters and the next character must be the `@`. -/
def emailMatch (l : List Char) : Bool :=
  match l.dropWhile isLocalChar with
  | '@' :: d => !(l.takeWhile isLocalChar).isEmpty && domainOk d
  | _ => false

/-- `validate_email` (cleaner.py lines 15-23): non-string input is invalid;
otherwise trim, lowercase and match the email regex. -/
def validate_email (v : Value) : Bool :=
  match v with
  | .str s => emailMatch ((stripCore s.data).map lowerChar)
  | _ => false

/-- `fix_email` (cleaner.py lines 36-40): trim and lowercase, re-validate,
and return the normalized email on success. -/
def fix_email (v : Value) : Option String :=
  match v with
  | .str s =>
    let e : List Char := (stripCore s.data).map lowerChar
    if validate_email (.str ⟨e⟩) then some ⟨e⟩ else none
  | _ => none

/-- `re.sub(r"[^\d+]", "", ...)`: keep digits and every `+`. -/
def keepPhoneChars (l : List Char) : List Char :=
  l.filter (fun c => isAsciiDigit c || c = '+')

/-- `phone[1:] if phone.startswith("+") else phone`. -/
def phoneDigits (kept : List Char) : List Char :=
  if kept.head? = some '+' then kept.tail else kept

/-- `digits.isdigit() and 7 <= len(digits) <= 15` (`isdigit` of the empty
string is `False`). -/
def phoneDigitsOk (digits : List Char) : Bool :=
  !digits.isEmpty && digits.all isAsciiDigit &&
    decide (7 ≤ digits.length) && decide (digits.length ≤ 15)

/-- `validate_phone` (cleaner.py lines 25-34). -/
def validate_phone (v : Value) : Bool :=
  match v with
  | .str s => phoneDigitsOk (phoneDigits (keepPhoneChars (stripCore s.data)))
  | _ => false

/-- `normalize_phone` (cleaner.py lines 42-47): returns the filtered string
(with its leading `+`) when the digit check passes. -/
def normalize_phone (v : Value) : Option String :=
  match v with
  | .str s =>
    let kept := keepPhoneChars (stripCore s.data)
    if phoneDigitsOk (phoneDigits kept) then some ⟨kept⟩ else none
  | _ => none

/-- Parsing of `float(...)` on a cleaned string: optional sign, decimal
digits with an optional fractional part, optional decimal exponent.  The
parsed value `±ipart.fpart × 10^±exp` is built with `mkRat` so that
concrete inputs evaluate by kernel reduction.  (The special forms
`inf`/`nan` and underscore separators accepted by Python `float` are not
modelled; no claim exercises them.  Values are exact rationals; IEEE
rounding is outside the model.) -/
def parseFloatQ (l : List Char) : Option ℚ :=
  let sl : Bool × List Char :=
    match l with
    | '+' :: r => (true, r)
    | '-' :: r => (false, r)
    | _ => (true, l)
  let ip := sl.2.takeWhile isAsciiDigit
  let l2 := sl.2.drop ip.length
  let fl : List Char × List Char :=
    match l2 with
    | '.' :: r => (r.takeWhile isAsciiDigit, r.drop (r.takeWhile isAsciiDigit).length)
    | _ => ([], l2)
  let mkVal : Nat → Nat → ℚ := fun epos eneg =>
    let n : Nat := digitsToNat (ip ++ fl.1) * Nat.pow 10 epos
    let d : Nat := Nat.pow 10 (fl.1.length + eneg)
    if sl.1 then mkRat n d else mkRat (-(n : Int)) d
  if ip.isEmpty && fl.1.isEmpty then none
  else
    match fl.2 with
    | [] => some (mkVal 0 0)
    | c :: r =>
      if c = 'e' || c = 'E' then
        let se : Bool × List Char :=
          match r with
          | '+' :: t => (true, t)
          | '-' :: t => (false, t)
          | _ => (true, r)
        let ed := se.2.takeWhile isAsciiDigit
        if ed.isEmpty || !(se.2.drop ed.length).isEmpty then none
        else some (if se.1 then mkVal (digitsToNat ed) 0 else mkVal 0 (digitsToNat ed))
      else none

/-- `clean_numeric` (cleaner.py lines 49-58): null is invalid; strings lose
every `,` and `$` and are stripped before parsing; a parsed number is valid
iff it is nonnegative.  `float(...)` of a timestamp raises `TypeError`,
which the function catches and turns into `None`. -/
def clean_numeric (v : Value) : Option ℚ :=
  match v with
  | .null => none
  | .num q => if 0 ≤ q then some q else none
  | .date _ => none
  | .str s =>
    let t := stripCore (s.data.filter (fun c => !(c = ',' || c = '$')))
    match parseFloatQ t with
    | some q => if 0 ≤ q then some q else none
    | none => none

/-- ISO `YYYY-MM-DD` date parsing (the fragment of `pd.to_datetime`'s
permissive grammar that the claims exercise; other accepted formats are
not modelled). -/
def parseIsoDate (l : List Char) : Option Timestamp :=
  match l with
  | [y1, y2, y3, y4, '-', m1, m2, '-', d1, d2] =>
    if ([y1, y2, y3, y4, m1, m2, d1, d2].all isAsciiDigit) then
      let m := digitsToNat [m1, m2]
      let d := digitsToNat [d1, d2]
      if 1 ≤ m ∧ m ≤ 12 ∧ 1 ≤ d ∧ d ≤ 31 then
        some (.ofDate (digitsToNat [y1, y2, y3, y4]) m d)
      else none
    else none
  | _ => none

/-- `clean_date` (cleaner.py lines 60-62): `pd.to_datetime(value,
errors="coerce")`; missing values give `NaT` (invalid), numbers are epoch
offsets (always valid), strings are parsed (modelled by `parseIsoDate`). -/
def clean_date (v : Value) : Option Timestamp :=
  match v with
  | .null => none
  | .num q => some (.ofEpoch q)
  | .date t => some t
  | .str s => parseIsoDate s.data

/-- `clean_text` (cleaner.py lines 64-68): non-strings and
empty-after-trim strings become absent. -/
def clean_text (v : Value) : Option String :=
  match v with
  | .str s =>
    let t := stripCore s.data
    if t.isEmpty then none else some ⟨t⟩
  | _ => none

/-! ## Tables -/

/-- A pandas DataFrame: ordered column names and rows of cells (each row
listing its cells in column order). -/
structure DataFrame where
  cols : List String
  rows : List (List Value)
deriving DecidableEq, Repr

/-- `df.empty`: true when either axis has length zero. -/
def DataFrame.emptyB (df : DataFrame) : Bool :=
  df.rows.isEmpty || df.cols.isEmpty

/-- cleaner.py line 74. -/
def REQUIRED_COLUMNS : List String :=
  ["id", "name", "email", "phone", "salary", "date_joined"]

/-- cleaner.py lines 75-78. -/
def OPTIONAL_COLUMNS : List String :=
  ["department", "notes", "position", "location", "status",
   "manager", "dob", "gender", "contract_type", "last_updated"]

/-- The report dict built by `clean_data`. -/
structure CleaningReport where
  original_rows : Nat
  final_rows : Nat
  duplicates_dropped : Nat
  invalid_emails_dropped : Nat
  invalid_phones_dropped : Nat
  invalid_numbers_dropped : Nat
  invalid_dates_dropped : Nat
  missing_required_columns : List String
  extra_columns : List String
  cleaning_version : String
deriving DecidableEq, Repr

def CLEANING_VERSION : String := "4.6"

/-- The all-zero report returned for an empty input table
(cleaner.py lines 91-103). -/
def emptyCleaningReport : CleaningReport :=
  { original_rows := 0
    final_rows := 0
    duplicates_dropped := 0
    invalid_emails_dropped := 0
    invalid_phones_dropped := 0
    invalid_numbers_dropped := 0
    invalid_dates_dropped := 0
    missing_required_columns := []
    extra_columns := []
    cleaning_version := CLEANING_VERSION }

/-- `CleaningError` raised by `clean_data`: either the missing-columns
failure (which records the offending names) or a wrapped
`ValueError`/`TypeError`/`KeyError`. -/
inductive CleaningError where
  | missingColumns (missing : List String)
  | invalidData (msg : String)
deriving DecidableEq, Repr

/-- Insertion into a ≤-sorted list of strings. -/
def insertSorted (s : String) : List String → List String
  | [] => [s]
  | t :: rest => if s ≤ t then s :: t :: rest else t :: insertSorted s rest

/-- Python `sorted` on strings. -/
def sortStrings (l : List String) : List String :=
  l.foldr insertSorted []

/-- `sorted(set(a) - set(b))`. -/
def sortedDiff (a b : List String) : List String :=
  sortStrings ((a.filter (fun c => !b.contains c)).dedup)

/-- `df.drop_duplicates()`: keep the first occurrence of every full row
(equality across all columns). -/
def dropDupsAux : List (List Value) → List (List Value) → List (List Value)
  | [], _ => []
  | r :: rest, seen =>
      if r ∈ seen then dropDupsAux rest seen else r :: dropDupsAux rest (r :: seen)

def dropDuplicates (rows : List (List Value)) : List (List Value) :=
  dropDupsAux rows []

/-- The combined invalid mask of cleaner.py lines 140-160 for one row:
the row is invalid iff any of the four validated fields fails. -/
def rowBadAt (ie ipn isal idt : Nat) (r : List Value) : Bool :=
  (fix_email (r.getD ie .null)).isNone || (normalize_phone (r.getD ipn .null)).isNone ||
    (clean_numeric (r.getD isal .null)).isNone || (clean_date (r.getD idt .null)).isNone

def optStrVal : Option String → Value
  | some s => .str s
  | none => .null

def optNumVal : Option ℚ → Value
  | some q => .num q
  | none => .null

def optDateVal : Option Timestamp → Value
  | some t => .date t
  | none => .null

/-- The column assignments of cleaner.py lines 142-166 for one row: the
four validated fields are replaced by their normalized value (null on
failure) and every present optional column is text-cleaned.  The masks in
`clean_data` are computed from the pre-assignment values, so per-row
transformation commutes with the row filter. -/
def rowTransformAt (cols : List String) (ie ipn isal idt : Nat) (r : List Value) :
    List Value :=
  (List.range cols.length).map fun j =>
    let v := r.getD j .null
    if j = ie then optStrVal (fix_email v)
    else if j = ipn then optStrVal (normalize_phone v)
    else if j = isal then optNumVal (clean_numeric v)
    else if j = idt then optDateVal (clean_date v)
    else if OPTIONAL_COLUMNS.contains (cols.getD j "") then optStrVal (clean_text v)
    else v

/-- The normalized column names of a frame (cleaner.py lines 119-123). -/
def normCols (df : DataFrame) : List String :=
  df.cols.map normColName

/-- `clean_data` (cleaner.py lines 84-174).  `drop_duplicates` and
`required_columns` mirror the keyword parameters (defaults `True` and
`None`; a falsy `required_columns` falls back to `REQUIRED_COLUMNS`). -/
def clean_data (df : DataFrame) (drop_dups : Bool)
    (required_columns : Option (List String)) :
    Except CleaningError (DataFrame × CleaningReport) :=
  if df.emptyB then .ok (df, emptyCleaningReport)
  else
    let cols := normCols df
    let required :=
      match required_columns with
      | some r => if r.isEmpty then REQUIRED_COLUMNS else r
      | none => REQUIRED_COLUMNS
    let missing := sortedDiff required cols
    if missing.isEmpty then
      match cols.findIdx? (· == "email"), cols.findIdx? (· == "phone"),
            cols.findIdx? (· == "salary"), cols.findIdx? (· == "date_joined") with
      | some ie, some ipn, some isal, some idt =>
        let extra := sortStrings
          ((cols.filter (fun c => !required.contains c && !OPTIONAL_COLUMNS.contains c)).dedup)
        let rows1 := if drop_dups then dropDuplicates df.rows else df.rows
        let outRows := (rows1.filter (fun r => !rowBadAt ie ipn isal idt r)).map
          (rowTransformAt cols ie ipn isal idt)
        .ok (⟨cols, outRows⟩,
          { original_rows := df.rows.length
            final_rows := outRows.length
            duplicates_dropped := df.rows.length - rows1.length
            invalid_emails_dropped := rows1.countP (fun r => (fix_email (r.getD ie .null)).isNone)
            invalid_phones_dropped := rows1.countP (fun r => (normalize_phone (r.getD ipn .null)).isNone)
            invalid_numbers_dropped := rows1.countP (fun r => (clean_numeric (r.getD isal .null)).isNone)
            invalid_dates_dropped := rows1.countP (fun r => (clean_date (r.getD idt .null)).isNone)
            missing_required_columns := []
            extra_columns := extra
            cleaning_version := CLEANING_VERSION })
      | _, _, _, _ => .error (.invalidData "KeyError: validation column absent")
    else .error (.missingColumns missing)

/-! Helper views used to state properties of `clean_data`. -/

/-- The cell of a row under a normalized column name. -/
def cellOf (df : DataFrame) (r : List Value) (c : String) : Value :=
  match (normCols df).findIdx? (· == c) with
  | some i => r.getD i .null
  | none => .null

def emailInvalidIn (df : DataFrame) (r : List Value) : Bool :=
  (fix_email (cellOf df r "email")).isNone

def phoneInvalidIn (df : DataFrame) (r : List Value) : Bool :=
  (normalize_phone (cellOf df r "phone")).isNone

def numberInvalidIn (df : DataFrame) (r : List Value) : Bool :=
  (clean_numeric (cellOf df r "salary")).isNone

def dateInvalidIn (df : DataFrame) (r : List Value) : Bool :=
  (clean_date (cellOf df r "date_joined")).isNone

/-- A row is marked invalid iff any of the four validated fields fails. -/
def rowInvalidIn (df : DataFrame) (r : List Value) : Bool :=
  emailInvalidIn df r || phoneInvalidIn df r || numberInvalidIn df r || dateInvalidIn df r

/-- The rows surviving duplicate removal. -/
def dedupedRows (df : DataFrame) : List (List Value) :=
  dropDuplicates df.rows

/-- Row occurrence `i` is a full-row duplicate of an earlier occurrence. -/
def dupOfEarlier (rows : List (List Value)) (i : Nat) : Bool :=
  (rows.take i).contains (rows.getD i [])

/-! ## Aggregate analyzer (`src/analyzer.py`) -/

/-- The `meta` block of the analysis dict (analyzer.py lines 36-44). -/
structure AnalysisMeta where
  row_count : Nat
  column_count : Nat
  numeric_columns : List String
  missing_values : List (String × Nat)
  analysis_version : String
deriving DecidableEq, Repr

/-- The `statistics` block (analyzer.py lines 47-53).  Pandas `mean`,
`min` and `max` skip nulls and are `NaN` (here `none`) on an all-null
column; `sum` of an all-null column is `0`. -/
structure AnalysisStats where
  mean : List (String × Option ℚ)
  min : List (String × Option ℚ)
  max : List (String × Option ℚ)
  sum : List (String × ℚ)
deriving DecidableEq, Repr

/-- The dict returned by `analyze_data`: `{}` for an empty input, or a
populated record.  The correlation entry is modelled by the list of
numeric columns it covers (its numeric entries are uninspected by the
spec; `df.corr()` itself never raises on numeric data). -/
inductive AnalysisOutput where
  | empty
  | result (meta : AnalysisMeta) (statistics : Option AnalysisStats)
      (correlation : Option (List String))
deriving DecidableEq, Repr

/-- `AnalysisError` (analyzer.py line 26): the allowlist names columns
absent from the table. -/
inductive AnalysisErr where
  | missingNumericColumns (missing : List String)
deriving DecidableEq, Repr

/-- The cells of a named column (exact name match; the analyzer does not
re-normalize column names). -/
def colValues (df : DataFrame) (c : String) : List Value :=
  match df.cols.findIdx? (· == c) with
  | some i => df.rows.map (fun r => r.getD i .null)
  | none => []

def Value.isNum : Value → Bool
  | .num _ => true
  | _ => false

def Value.isNull : Value → Bool
  | .null => true
  | _ => false

/-- `select_dtypes(include="number")` membership: a column is numeric when
every cell is a number or null and at least one cell is a number (dtype
classification is abstracted to the cell contents; an all-null object
column is not numeric). -/
def colIsNumeric (df : DataFrame) (c : String) : Bool :=
  (colValues df c).all (fun v => v.isNum || v.isNull) &&
    (colValues df c).any (fun v => v.isNum)

/-- The numeric cells of a column (nulls skipped, as pandas aggregations
do). -/
def colNums (df : DataFrame) (c : String) : List ℚ :=
  (colValues df c).filterMap fun v =>
    match v with
    | .num q => some q
    | _ => none

def colNullCount (df : DataFrame) (c : String) : Nat :=
  (colValues df c).countP Value.isNull

def qListSum (l : List ℚ) : ℚ :=
  l.foldl (fun a b => Rat.add a b) 0

def qListMin : List ℚ → Option ℚ
  | [] => none
  | q :: r =>
    match qListMin r with
    | none => some q
    | some m => some (if q ≤ m then q else m)

def qListMax : List ℚ → Option ℚ
  | [] => none
  | q :: r =>
    match qListMax r with
    | none => some q
    | some m => some (if m ≤ q then q else m)

def colMean (df : DataFrame) (c : String) : Option ℚ :=
  let nums := colNums df c
  if nums.isEmpty then none
  else some (Rat.div (qListSum nums) (mkRat nums.length 1))

/-- `analyze_data` (analyzer.py lines 7-76). -/
def analyze_data (df : DataFrame) (numeric_columns : Option (List String)) :
    Except AnalysisErr AnalysisOutput :=
  if df.emptyB then .ok .empty
  else
    let chosen : Except AnalysisErr (List String) :=
      match numeric_columns with
      | some nc =>
        if nc.isEmpty then .ok df.cols
        else
          let missing := nc.filter (fun c => !df.cols.contains c)
          if missing.isEmpty then .ok nc else .error (.missingNumericColumns missing)
      | none => .ok df.cols
    match chosen with
    | .error e => .error e
    | .ok chosenCols =>
      let numericCols := chosenCols.filter (colIsNumeric df)
      let missingVals := df.cols.filterMap fun c =>
        let n := colNullCount df c
        if n > 0 then some (c, n) else none
      let meta : AnalysisMeta :=
        { row_count := df.rows.length
          column_count := df.cols.length
          numeric_columns := numericCols
          missing_values := missingVals
          analysis_version := "1.0" }
      if df.rows.isEmpty || numericCols.isEmpty then
        .ok (.result meta none none)
      else
        let stats : AnalysisStats :=
          { mean := numericCols.map fun c => (c, colMean df c)
            min := numericCols.map fun c => (c, qListMin (colNums df c))
            max := numericCols.map fun c => (c, qListMax (colNums df c))
            sum := numericCols.map fun c => (c, qListSum (colNums df c)) }
        let corr : Option (List String) :=
          if 2 ≤ numericCols.length ∧ numericCols.length ≤ 10 then some numericCols
          else none
        .ok (.result meta (some stats) corr)

/-- Whether an analysis output contains a correlation entry. -/
def hasCorrelation : AnalysisOutput → Bool
  | .result _ _ (some _) => true
  | _ => false

/-- Whether an analysis output carries the fixed schema-version tag
`"1.0"` in its metadata. -/
def hasVersionTag : AnalysisOutput → Bool
  | .result m _ _ => m.analysis_version == "1.0"
  | .empty => false

/-- The numeric-column list recorded in an analysis output. -/
def numericColsOf : AnalysisOutput → List String
  | .result m _ _ => m.numeric_columns
  | .empty => []

/-! ## Quality grading (`src/main.py`, `run_pipeline_async` lines 255-262) -/

/-- `drop_rate = 1 - final_rows / original_rows` (main.py line 256).  The
division is unguarded in the source: `original_rows = 0` raises
`ZeroDivisionError`, modelled as `none`. -/
def dropRateQ (rep : CleaningReport) : Option ℚ :=
  if rep.original_rows = 0 then none
  else some (1 - (rep.final_rows : ℚ) / (rep.original_rows : ℚ))

/-- The three severity tiers (the source labels the high tier with the
string `"HIGH ⚠️"`; the tier itself is what the spec constrains). -/
inductive Severity where
  | LOW
  | MEDIUM
  | HIGH
deriving DecidableEq, Repr

/-- The severity classification of main.py lines 257-262. -/
def severityOf (d : ℚ) : Severity :=
  if d < 0.10 then .LOW
  else if d ≤ 0.30 then .MEDIUM
  else .HIGH

/-- The per-row cleaning transformation expressed through column names:
the first column named `email`/`phone`/`salary`/`date_joined` (after
normalization) is replaced by its validator output, optional columns are
text-cleaned, everything else passes through. -/
def cleanedRowIn (df : DataFrame) (r : List Value) : List Value :=
  (List.range (normCols df).length).map fun j =>
    let v := r.getD j .null
    if some j = (normCols df).findIdx? (· == "email") then optStrVal (fix_email v)
    else if some j = (normCols df).findIdx? (· == "phone") then optStrVal (normalize_phone v)
    else if some j = (normCols df).findIdx? (· == "salary") then optNumVal (clean_numeric v)
    else if some j = (normCols df).findIdx? (· == "date_joined") then optDateVal (clean_date v)
    else if OPTIONAL_COLUMNS.contains ((normCols df).getD j "") then optStrVal (clean_text v)
    else v

/-- After `re.sub(r"[^\d+]", "", ...)`, every surviving `+` is a single
leading one. -/
def plusesOnlyLeading (l : List Char) : Bool :=
  if l.head? = some '+' then !l.tail.contains '+' else !l.contains '+'

/-- The phone acceptance condition exactly as the spec words it
(claim C5): the value is accepted iff the digit count remaining after
stripping is between 7 and 15 inclusive.  This is the spec-side
formulation, kept separate from the source-side `validate_phone` so the
two can be compared. -/
def specPhoneValid (s : String) : Bool :=
  let k := keepPhoneChars (stripCore s.data)
  decide (7 ≤ k.countP isAsciiDigit) && decide (k.countP isAsciiDigit ≤ 15)

/-- Whether an `Except` value is a success. -/
def exceptOk {ε α : Type} : Except ε α → Bool
  | .ok _ => true
  | .error _ => false

/-! Concrete frames used by the witnesses. -/

/-- Four raw rows: a valid row, an exact duplicate of it, a row with a bad
email, and a row with a negative salary. -/
def sampleFrame : DataFrame :=
  ⟨["id", "name", "email", "phone", "salary", "date_joined"],
   [[.num 1, .str "Ann", .str "a@b.com", .str "+12345678", .str "100", .str "2020-01-02"],
    [.num 1, .str "Ann", .str "a@b.com", .str "+12345678", .str "100", .str "2020-01-02"],
    [.num 2, .str "Bob", .str "bad", .str "+12345678", .str "100", .str "2020-01-02"],
    [.num 3, .str "Cal", .str "c@d.com", .str "12345678", .str "-5", .str "2020-01-02"]]⟩

/-- The cleaned frame `clean_data` produces from `sampleFrame`. -/
def sampleCleanFrame : DataFrame :=
  ⟨["id", "name", "email", "phone", "salary", "date_joined"],
   [[.num 1, .str "Ann", .str "a@b.com", .str "+12345678", .num (mkRat 100 1),
     .date (.ofDate 2020 1 2)]]⟩

/-- The report `clean_data` produces from `sampleFrame`. -/
def sampleReport : CleaningReport :=
  { original_rows := 4
    final_rows := 1
    duplicates_dropped := 1
    invalid_emails_dropped := 1
    invalid_phones_dropped := 0
    invalid_numbers_dropped := 1
    invalid_dates_dropped := 0
    missing_required_columns := []
    extra_columns := []
    cleaning_version := CLEANING_VERSION }

/-- A frame with zero rows but a column outside the required set. -/
def emptyColFrame : DataFrame := ⟨["foo"], []⟩

/-- A small all-numeric frame for the analyzer witnesses. -/
def numericFrame : DataFrame :=
  ⟨["a", "b"], [[.num 1, .num 2], [.num 2, .num 3]]⟩

/-- The output `analyze_data` produces from `numericFrame`. -/
def numericFrameOutput : AnalysisOutput :=
  .result
    { row_count := 2
      column_count := 2
      numeric_columns := ["a", "b"]
      missing_values := []
      analysis_version := "1.0" }
    (some
      { mean := [("a", some (mkRat 3 2)), ("b", some (mkRat 5 2))]
        min := [("a", some 1), ("b", some 2)]
        max := [("a", some 2), ("b", some 3)]
        sum := [("a", 3), ("b", 5)] })
    (some ["a", "b"])

example : validate_email (.str "  John.Doe@Example.COM ") = true := by decide
example : validate_email (.str "bad") = false := by decide
example : fix_email (.str " A@B.com") = some "a@b.com" := by decide
example : validate_phone (.str "+1 (555) 123-4567") = true := by decide
example : validate_phone (.str "12+34567") = false := by decide
example : validate_phone (.num 5550000000) = false := by decide
example : clean_numeric (.str "$1,234.50") = some (mkRat 2469 2) := by rfl
example : clean_numeric (.str "-5") = none := by rfl
example : clean_date (.str "2023-05-17") = some (.ofDate 2023 5 17) := by decide
example : clean_date (.str "hello") = none := by decide
example : clean_text (.str "  ") = none := by decide

/-! ## Supporting lemmas -/

theorem countP_not_add_countP {α : Type} (p : α → Bool) (l : List α) :
    l.countP (fun a => !p a) + l.countP p = l.length := by
  induction l with
  | nil => simp
  | cons a l ih =>
    by_cases h : p a <;> simp [List.countP_cons, h] <;> omega

theorem dropDupsAux_length_le (rows seen : List (List Value)) :
    (dropDupsAux rows seen).length ≤ rows.length := by
  induction rows generalizing seen with
  | nil => simp [dropDupsAux]
  | cons r rest ih =>
    rw [dropDupsAux]
    by_cases h : r ∈ seen
    · rw [if_pos h]
      exact Nat.le_succ_of_le (ih seen)
    · rw [if_neg h]
      simpa using ih (r :: seen)

theorem dropDuplicates_length_le (rows : List (List Value)) :
    (dropDuplicates rows).length ≤ rows.length :=
  dropDupsAux_length_le rows []

/-- Index characterization of `dropDupsAux`: it keeps exactly the
occurrences that are neither in `seen` nor equal to an earlier
occurrence. -/
theorem dropDupsAux_eq (rows seen : List (List Value)) :
    dropDupsAux rows seen =
      ((List.range rows.length).filter
        (fun i => !seen.contains (rows.getD i []) &&
          !(rows.take i).contains (rows.getD i []))).map
        (fun i => rows.getD i []) := by
  induction rows generalizing seen with
  | nil => simp [dropDupsAux]
  | cons r rest ih =>
    rw [dropDupsAux]
    simp only [List.length_cons]
    rw [List.range_succ_eq_map, List.filter_cons]
    by_cases hmem : r ∈ seen
    · rw [if_pos hmem]
      have hc : seen.contains r = true := by simpa using hmem
      simp only [List.getD_cons_zero, List.take_zero, List.contains_nil, hc,
        Bool.not_true, Bool.not_false, Bool.and_true, Bool.false_and, Bool.false_eq_true,
        if_false, List.filter_map, List.map_map]
      have hfil : List.filter ((fun i => !seen.contains ((r :: rest).getD i []) &&
            !(List.take i (r :: rest)).contains ((r :: rest).getD i [])) ∘ Nat.succ)
            (List.range rest.length) =
          List.filter (fun i => !seen.contains (rest.getD i []) &&
            !(rest.take i).contains (rest.getD i [])) (List.range rest.length) := by
        apply List.filter_congr
        intro i _
        simp only [Function.comp_apply, List.getD_cons_succ, List.take_succ_cons,
          List.contains_cons]
        by_cases hx : rest.getD i [] = r
        · have hsc : seen.contains (rest.getD i []) = true := by rw [hx]; simpa using hmem
          rw [hsc]
          simp only [Bool.not_true, Bool.false_and]
        · have hb : (rest.getD i [] == r) = false := beq_eq_false_iff_ne.mpr hx
          rw [hb]
          simp only [Bool.false_or]
      rw [hfil, ih seen]
      exact List.map_congr_left (fun i _ => rfl)
    · rw [if_neg hmem]
      have hc : seen.contains r = false := by simpa using hmem
      simp only [List.getD_cons_zero, List.take_zero, List.contains_nil, hc,
        Bool.not_true, Bool.not_false, Bool.and_true, Bool.true_and, if_true,
        List.map_cons, List.filter_map, List.map_map]
      have hfil : List.filter ((fun i => !seen.contains ((r :: rest).getD i []) &&
            !(List.take i (r :: rest)).contains ((r :: rest).getD i [])) ∘ Nat.succ)
            (List.range rest.length) =
          List.filter (fun i => !(r :: seen).contains (rest.getD i []) &&
            !(rest.take i).contains (rest.getD i [])) (List.range rest.length) := by
        apply List.filter_congr
        intro i _
        simp only [Function.comp_apply, List.getD_cons_succ, List.take_succ_cons,
          List.contains_cons]
        by_cases hx : rest.getD i [] = r
        · have hb : (rest.getD i [] == r) = true := by rw [hx]; exact beq_self_eq_true r
          rw [hb]
          simp only [Bool.true_or, Bool.not_true, Bool.and_false, Bool.false_and]
        · have hb : (rest.getD i [] == r) = false := beq_eq_false_iff_ne.mpr hx
          rw [hb]
          simp only [Bool.false_or]
      rw [hfil, ih (r :: seen)]
      exact congrArg _ (List.map_congr_left (fun i _ => rfl))

/-- `drop_duplicates` keeps exactly the occurrences that do not duplicate
an earlier row. -/
theorem dropDuplicates_eq (rows : List (List Value)) :
    dropDuplicates rows =
      ((List.range rows.length).filter (fun i => !dupOfEarlier rows i)).map
        (fun i => rows.getD i []) := by
  rw [dropDuplicates, dropDupsAux_eq]
  exact congrArg _ (List.filter_congr (fun i _ => by simp [dupOfEarlier]))

/-- Elimination principle for a successful `clean_data` run on a
non-empty frame: the required-column check passed, the four validated
columns were found, and the result and report are the ones built in
cleaner.py lines 131-170. -/
theorem clean_data_ok_main (df res : DataFrame) (rep : CleaningReport) (dd : Bool)
    (hne : df.emptyB = false) (h : clean_data df dd none = .ok (res, rep)) :
    ∃ ie ipn isal idt,
      (normCols df).findIdx? (· == "email") = some ie ∧
      (normCols df).findIdx? (· == "phone") = some ipn ∧
      (normCols df).findIdx? (· == "salary") = some isal ∧
      (normCols df).findIdx? (· == "date_joined") = some idt ∧
      res = ⟨normCols df,
        ((if dd then dropDuplicates df.rows else df.rows).filter
            (fun r => !rowBadAt ie ipn isal idt r)).map
          (rowTransformAt (normCols df) ie ipn isal idt)⟩ ∧
      rep = { original_rows := df.rows.length
              final_rows := (((if dd then dropDuplicates df.rows else df.rows).filter
                  (fun r => !rowBadAt ie ipn isal idt r)).map
                (rowTransformAt (normCols df) ie ipn isal idt)).length
              duplicates_dropped :=
                df.rows.length - (if dd then dropDuplicates df.rows else df.rows).length
              invalid_emails_dropped := (if dd then dropDuplicates df.rows else df.rows).countP
                (fun r => (fix_email (r.getD ie .null)).isNone)
              invalid_phones_dropped := (if dd then dropDuplicates df.rows else df.rows).countP
                (fun r => (normalize_phone (r.getD ipn .null)).isNone)
              invalid_numbers_dropped := (if dd then dropDuplicates df.rows else df.rows).countP
                (fun r => (clean_numeric (r.getD isal .null)).isNone)
              invalid_dates_dropped := (if dd then dropDuplicates df.rows else df.rows).countP
                (fun r => (clean_date (r.getD idt .null)).isNone)
              missing_required_columns := []
              extra_columns := sortStrings (((normCols df).filter
                (fun c => !REQUIRED_COLUMNS.contains c && !OPTIONAL_COLUMNS.contains c)).dedup)
              cleaning_version := CLEANING_VERSION } := by
  unfold clean_data at h
  simp only [hne, Bool.false_eq_true, if_false] at h
  split at h
  case isFalse => simp at h
  case isTrue hmiss =>
    split at h
    case h_2 => simp at h
    case h_1 ie ipn isal idt he hp hs hd =>
      rw [Except.ok.injEq, Prod.mk.injEq] at h
      exact ⟨ie, ipn, isal, idt, he, hp, hs, hd, h.1.symm, h.2.symm⟩

/-! ## Claim theorems -/

/-- C2: for every drop rate `d` in `[0,1]` the grading step assigns `LOW`
exactly when `d < 0.10`, `MEDIUM` exactly when `0.10 ≤ d ≤ 0.30` and
`HIGH` exactly when `d > 0.30`; in particular `d = 0.10` is `MEDIUM`, and
these three tiers are the only severity values. -/
theorem severity_partition (d : ℚ) (h0 : 0 ≤ d) (h1 : d ≤ 1) :
    (severityOf d = .LOW ↔ d < 0.10) ∧
    (severityOf d = .MEDIUM ↔ 0.10 ≤ d ∧ d ≤ 0.30) ∧
    (severityOf d = .HIGH ↔ 0.30 < d) := by
  unfold severityOf
  split_ifs with ha hb
  · exact ⟨⟨fun _ => ha, fun _ => rfl⟩,
      ⟨fun hc => absurd hc (by decide), fun hc => absurd ha (not_lt.mpr hc.1)⟩,
      ⟨fun hc => absurd hc (by decide), fun hc => absurd ha (not_lt.mpr (by linarith))⟩⟩
  · rw [not_lt] at ha
    exact ⟨⟨fun hc => absurd hc (by decide), fun hc => absurd hc (not_lt.mpr ha)⟩,
      ⟨fun _ => ⟨ha, hb⟩, fun _ => rfl⟩,
      ⟨fun hc => absurd hc (by decide), fun hc => absurd hb (not_le.mpr hc)⟩⟩
  · rw [not_lt] at ha
    rw [not_le] at hb
    exact ⟨⟨fun hc => absurd hc (by decide), fun hc => absurd hc (not_lt.mpr ha)⟩,
      ⟨fun hc => absurd hc (by decide), fun hc => absurd hb (not_lt.mpr hc.2)⟩,
      ⟨fun _ => hb, fun _ => rfl⟩⟩

/-- Witness for C2 at the boundary input `d = 0.10`. -/
theorem severity_partition_witness : severityOf 0.10 = Severity.MEDIUM :=
  ((severity_partition 0.10 (by norm_num) (by norm_num)).2.1).mpr (by norm_num)

/-- C1 counterexample: the report of an empty run (original_rows = 0) is
graded by an unguarded division; the drop rate has no value there
(`ZeroDivisionError`), in particular it is not the claimed `0`. -/
theorem dropRate_zero_undefined :
    dropRateQ emptyCleaningReport = none ∧ dropRateQ emptyCleaningReport ≠ some 0 :=
  ⟨rfl, fun hc => by rw [show dropRateQ emptyCleaningReport = none from rfl] at hc; cases hc⟩

/-- C1 (amended): for every report produced by `clean_data` whose
`original_rows` is nonzero, the grading step computes the drop rate
`1 - final_rows/original_rows` and that value lies in `[0,1]`; when
`original_rows = 0` the computation has no value (division by zero)
rather than the claimed `0`. -/
theorem dropRate_bounds (df res : DataFrame) (rep : CleaningReport)
    (h : clean_data df true none = .ok (res, rep)) (hpos : rep.original_rows ≠ 0) :
    dropRateQ rep = some (1 - (rep.final_rows : ℚ) / (rep.original_rows : ℚ)) ∧
    ∀ d : ℚ, dropRateQ rep = some d → 0 ≤ d ∧ d ≤ 1 := by
  have hfle : rep.final_rows ≤ rep.original_rows := by
    by_cases hne : df.emptyB = true
    · unfold clean_data at h
      rw [if_pos hne] at h
      rw [Except.ok.injEq, Prod.mk.injEq] at h
      rw [← h.2] at hpos
      exact absurd rfl hpos
    · obtain ⟨ie, ipn, isal, idt, _, _, _, _, _, hrep⟩ :=
        clean_data_ok_main df res rep true (by simpa using hne) h
      subst hrep
      simp only [List.length_map, if_pos rfl]
      calc ((dropDuplicates df.rows).filter (fun r => !rowBadAt ie ipn isal idt r)).length
          ≤ (dropDuplicates df.rows).length := List.length_filter_le _ _
        _ ≤ df.rows.length := dropDuplicates_length_le _
  have hop : (0 : ℚ) < (rep.original_rows : ℚ) := by
    exact_mod_cast Nat.pos_of_ne_zero hpos
  constructor
  · unfold dropRateQ
    rw [if_neg hpos]
  · intro d hd
    unfold dropRateQ at hd
    rw [if_neg hpos] at hd
    injection hd with hd
    subst hd
    have hdiv1 : (rep.final_rows : ℚ) / (rep.original_rows : ℚ) ≤ 1 :=
      (div_le_one hop).mpr (by exact_mod_cast hfle)
    have hdiv0 : (0 : ℚ) ≤ (rep.final_rows : ℚ) / (rep.original_rows : ℚ) :=
      div_nonneg (by positivity) (le_of_lt hop)
    constructor <;> linarith

/-- Witness for C1 (amended) on `sampleFrame` (drop rate 3/4). -/
theorem dropRate_bounds_witness :
    dropRateQ sampleReport =
      some (1 - (sampleReport.final_rows : ℚ) / (sampleReport.original_rows : ℚ)) ∧
    ∀ d : ℚ, dropRateQ sampleReport = some d → 0 ≤ d ∧ d ≤ 1 :=
  dropRate_bounds sampleFrame sampleCleanFrame sampleReport
    (by with_unfolding_all rfl) (by decide)

/-- C10: an empty input table (zero rows) short-circuits to the all-zero
report with an empty `missing_required_columns` list, with no
missing-columns error even when required columns are absent. -/
theorem empty_input_short_circuit (df : DataFrame) (dd : Bool)
    (rc : Option (List String)) (h : df.rows = []) :
    clean_data df dd rc = .ok (df, emptyCleaningReport) ∧
    emptyCleaningReport.missing_required_columns = [] := by
  refine ⟨?_, rfl⟩
  have hemp : df.emptyB = true := by simp [DataFrame.emptyB, h]
  unfold clean_data
  rw [if_pos hemp]

/-- Witness for C10: a zero-row frame whose only column is not required. -/
theorem empty_input_short_circuit_witness :
    clean_data emptyColFrame true none = .ok (emptyColFrame, emptyCleaningReport) ∧
    emptyCleaningReport.missing_required_columns = [] :=
  empty_input_short_circuit emptyColFrame true none rfl

/-- C8 counterexample: the result for an empty input table is the bare
empty dict, which carries no `analysis_version` tag. -/
theorem analysis_version_empty_missing :
    analyze_data ⟨["id"], []⟩ none = .ok AnalysisOutput.empty ∧
    hasVersionTag AnalysisOutput.empty = false :=
  ⟨rfl, rfl⟩

/-- C8 (amended): every successful analysis of a non-empty table carries
the fixed schema-version tag `"1.0"` in its metadata; the empty-table
result is the empty dict with no metadata at all. -/
theorem analysis_version_tag (df : DataFrame) (al : Option (List String))
    (out : AnalysisOutput) (hne : df.emptyB = false)
    (h : analyze_data df al = .ok out) : hasVersionTag out = true := by
  unfold analyze_data at h
  simp only [hne, Bool.false_eq_true, if_false] at h
  rcases al with _ | nc <;> simp only at h
  · split at h <;>
      (injection h with h; rw [← h]; rfl)
  · split at h
    case h_1 => exact Except.noConfusion h
    case h_2 =>
      split at h <;> (injection h with h; rw [← h]; rfl)

/-- Witness for C8 (amended) on `numericFrame`. -/
theorem analysis_version_tag_witness : hasVersionTag numericFrameOutput = true :=
  analysis_version_tag numericFrame none numericFrameOutput rfl
    (by with_unfolding_all rfl)

theorem countP_congr_aux {α : Type} {p q : α → Bool} (l : List α)
    (h : ∀ a ∈ l, p a = q a) : l.countP p = l.countP q := by
  rw [List.countP_eq_length_filter, List.countP_eq_length_filter, List.filter_congr h]

/-- C3: on a non-empty table passing the required-column check,
`final_rows = original_rows - duplicates_dropped - #(post-dedup rows with
some failing field)`, and each per-field counter independently counts all
post-dedup rows failing that field. -/
theorem cleaning_report_counts (df res : DataFrame) (rep : CleaningReport)
    (hne : df.emptyB = false) (h : clean_data df true none = .ok (res, rep)) :
    rep.final_rows = rep.original_rows - rep.duplicates_dropped -
        (dedupedRows df).countP (rowInvalidIn df) ∧
    rep.invalid_emails_dropped = (dedupedRows df).countP (emailInvalidIn df) ∧
    rep.invalid_phones_dropped = (dedupedRows df).countP (phoneInvalidIn df) ∧
    rep.invalid_numbers_dropped = (dedupedRows df).countP (numberInvalidIn df) ∧
    rep.invalid_dates_dropped = (dedupedRows df).countP (dateInvalidIn df) := by
  obtain ⟨ie, ipn, isal, idt, he, hp, hs, hd, hres, hrep⟩ :=
    clean_data_ok_main df res rep true hne h
  subst hrep
  have hcell : ∀ c i r, (normCols df).findIdx? (· == c) = some i →
      cellOf df r c = r.getD i .null := by
    intro c i r hidx
    unfold cellOf
    rw [hidx]
  have hrow : ∀ r, rowBadAt ie ipn isal idt r = rowInvalidIn df r := by
    intro r
    unfold rowBadAt rowInvalidIn emailInvalidIn phoneInvalidIn numberInvalidIn dateInvalidIn
    rw [hcell _ _ _ he, hcell _ _ _ hp, hcell _ _ _ hs, hcell _ _ _ hd]
  simp only [eq_self_iff_true, if_true, List.length_map, dedupedRows]
  refine ⟨?_, ?_, ?_, ?_, ?_⟩
  · have hfil : ((dropDuplicates df.rows).filter
          (fun r => !rowBadAt ie ipn isal idt r)).length =
        (dropDuplicates df.rows).countP (fun r => !rowInvalidIn df r) := by
      rw [← List.countP_eq_length_filter]
      exact countP_congr_aux _ (fun r _ => by rw [hrow])
    rw [hfil]
    have hsum := countP_not_add_countP (rowInvalidIn df) (dropDuplicates df.rows)
    have hlen := dropDuplicates_length_le df.rows
    omega
  · exact countP_congr_aux _ (fun r _ => by
      unfold emailInvalidIn; rw [hcell _ _ _ he])
  · exact countP_congr_aux _ (fun r _ => by
      unfold phoneInvalidIn; rw [hcell _ _ _ hp])
  · exact countP_congr_aux _ (fun r _ => by
      unfold numberInvalidIn; rw [hcell _ _ _ hs])
  · exact countP_congr_aux _ (fun r _ => by
      unfold dateInvalidIn; rw [hcell _ _ _ hd])

/-- Witness for C3 on `sampleFrame` (one duplicate, one bad email row, one
bad salary row). -/
theorem cleaning_report_counts_witness :
    sampleReport.final_rows = sampleReport.original_rows -
        sampleReport.duplicates_dropped -
        (dedupedRows sampleFrame).countP (rowInvalidIn sampleFrame) ∧
    sampleReport.invalid_emails_dropped =
      (dedupedRows sampleFrame).countP (emailInvalidIn sampleFrame) ∧
    sampleReport.invalid_phones_dropped =
      (dedupedRows sampleFrame).countP (phoneInvalidIn sampleFrame) ∧
    sampleReport.invalid_numbers_dropped =
      (dedupedRows sampleFrame).countP (numberInvalidIn sampleFrame) ∧
    sampleReport.invalid_dates_dropped =
      (dedupedRows sampleFrame).countP (dateInvalidIn sampleFrame) :=
  cleaning_report_counts sampleFrame sampleCleanFrame sampleReport rfl
    (by with_unfolding_all rfl)

/-- C4: a row occurrence is retained (in transformed form) iff it is not
a full-row duplicate of an earlier occurrence and none of its four
validated fields fails; the duplicate test runs on the raw rows, before
any validation or normalization. -/
theorem row_retention (df res : DataFrame) (rep : CleaningReport)
    (hne : df.emptyB = false) (h : clean_data df true none = .ok (res, rep)) :
    res.rows = ((List.range df.rows.length).filter
        (fun i => !dupOfEarlier df.rows i &&
          !rowInvalidIn df (df.rows.getD i []))).map
      (fun i => cleanedRowIn df (df.rows.getD i [])) := by
  obtain ⟨ie, ipn, isal, idt, he, hp, hs, hd, hres, hrep⟩ :=
    clean_data_ok_main df res rep true hne h
  subst hres
  have hcell : ∀ c i r, (normCols df).findIdx? (· == c) = some i →
      cellOf df r c = r.getD i .null := by
    intro c i r hidx
    unfold cellOf
    rw [hidx]
  have hrow : ∀ r, rowBadAt ie ipn isal idt r = rowInvalidIn df r := by
    intro r
    unfold rowBadAt rowInvalidIn emailInvalidIn phoneInvalidIn numberInvalidIn dateInvalidIn
    rw [hcell _ _ _ he, hcell _ _ _ hp, hcell _ _ _ hs, hcell _ _ _ hd]
  have htrans : ∀ r, rowTransformAt (normCols df) ie ipn isal idt r = cleanedRowIn df r := by
    intro r
    unfold rowTransformAt cleanedRowIn
    apply List.map_congr_left
    intro j _
    rw [he, hp, hs, hd]
    simp only [Option.some.injEq, eq_comm]
  show ((if true = true then dropDuplicates df.rows else df.rows).filter
      (fun r => !rowBadAt ie ipn isal idt r)).map
    (rowTransformAt (normCols df) ie ipn isal idt) = _
  rw [if_pos rfl, dropDuplicates_eq, List.filter_map, List.map_map, List.filter_filter]
  have hfil : List.filter (fun i =>
        ((fun r => !rowBadAt ie ipn isal idt r) ∘ fun i => df.rows.getD i []) i &&
          !dupOfEarlier df.rows i) (List.range df.rows.length) =
      List.filter (fun i => !dupOfEarlier df.rows i &&
        !rowInvalidIn df (df.rows.getD i [])) (List.range df.rows.length) := by
    apply List.filter_congr
    intro i _
    simp only [Function.comp_apply]
    rw [hrow, Bool.and_comm]
  rw [hfil]
  exact List.map_congr_left (fun i _ => htrans _)

/-- Witness for C4 on `sampleFrame`. -/
theorem row_retention_witness :
    sampleCleanFrame.rows = ((List.range sampleFrame.rows.length).filter
        (fun i => !dupOfEarlier sampleFrame.rows i &&
          !rowInvalidIn sampleFrame (sampleFrame.rows.getD i []))).map
      (fun i => cleanedRowIn sampleFrame (sampleFrame.rows.getD i [])) :=
  row_retention sampleFrame sampleCleanFrame sampleReport rfl
    (by with_unfolding_all rfl)

/-- C6: analyzing a non-empty table (no allowlist) never errors, and the
result contains a correlation entry iff the numeric column count lies in
`[2,10]` (the model's correlation computation is total, matching the
claim's "and the computation does not fail" conjunct). -/
theorem correlation_presence (df : DataFrame) (hne : df.emptyB = false) :
    exceptOk (analyze_data df none) = true ∧
    ∀ out, analyze_data df none = .ok out →
      (hasCorrelation out = true ↔
        2 ≤ (df.cols.filter (colIsNumeric df)).length ∧
          (df.cols.filter (colIsNumeric df)).length ≤ 10) := by
  have hrows : df.rows.isEmpty = false := by
    unfold DataFrame.emptyB at hne
    rcases Bool.or_eq_false_iff.mp hne with ⟨h1, _⟩
    exact h1
  unfold analyze_data
  simp only [hne, Bool.false_eq_true, if_false, hrows, Bool.false_or]
  by_cases hnum : (df.cols.filter (colIsNumeric df)).isEmpty
  · rw [if_pos hnum]
    refine ⟨rfl, fun out hout => ?_⟩
    injection hout with hout
    rw [← hout]
    have : (df.cols.filter (colIsNumeric df)).length = 0 := by
      rw [List.isEmpty_iff] at hnum
      rw [hnum]
      rfl
    rw [this]
    simp [hasCorrelation]
  · rw [if_neg hnum]
    by_cases hrange : 2 ≤ (df.cols.filter (colIsNumeric df)).length ∧
        (df.cols.filter (colIsNumeric df)).length ≤ 10
    · rw [if_pos hrange]
      refine ⟨rfl, fun out hout => ?_⟩
      injection hout with hout
      rw [← hout]
      simp [hasCorrelation, hrange]
    · rw [if_neg hrange]
      refine ⟨rfl, fun out hout => ?_⟩
      injection hout with hout
      rw [← hout]
      simp [hasCorrelation, hrange]

/-- Witness for C6 on the two-numeric-column `numericFrame`. -/
theorem correlation_presence_witness :
    exceptOk (analyze_data numericFrame none) = true ∧
    (hasCorrelation numericFrameOutput = true ↔
      2 ≤ (numericFrame.cols.filter (colIsNumeric numericFrame)).length ∧
        (numericFrame.cols.filter (colIsNumeric numericFrame)).length ≤ 10) :=
  ⟨(correlation_presence numericFrame rfl).1,
   (correlation_presence numericFrame rfl).2 numericFrameOutput
     (by with_unfolding_all rfl)⟩

/-- C7: with a non-empty allowlist on a non-empty table, `analyze_data`
errors (naming the missing columns) exactly when some listed column is
absent, and otherwise succeeds with its numeric analysis restricted to
the listed columns. -/
theorem allowlist_validation (df : DataFrame) (nc : List String)
    (hne : df.emptyB = false) (hnc : nc ≠ []) :
    (nc.filter (fun c => !df.cols.contains c) ≠ [] →
      analyze_data df (some nc) =
        .error (.missingNumericColumns (nc.filter (fun c => !df.cols.contains c)))) ∧
    (nc.filter (fun c => !df.cols.contains c) = [] →
      exceptOk (analyze_data df (some nc)) = true ∧
      ∀ out, analyze_data df (some nc) = .ok out →
        ∀ c, c ∈ numericColsOf out → c ∈ nc) := by
  have hempty : nc.isEmpty = false := by
    rw [List.isEmpty_eq_false]
    exact hnc
  unfold analyze_data
  simp only [hne, Bool.false_eq_true, if_false, hempty]
  constructor
  · intro hmiss
    have hmB : (nc.filter (fun c => !df.cols.contains c)).isEmpty = false := by
      rw [List.isEmpty_eq_false]
      exact hmiss
    simp only [hmB, Bool.false_eq_true, if_false]
  · intro hmiss
    have hmB : (nc.filter (fun c => !df.cols.contains c)).isEmpty = true := by
      rw [List.isEmpty_iff]
      exact hmiss
    simp only [hmB, if_true]
    split
    · exact ⟨rfl, fun out hout => by
        injection hout with hout
        rw [← hout]
        intro c hc
        exact (List.mem_filter.mp hc).1⟩
    · split
      · exact ⟨rfl, fun out hout => by
          injection hout with hout
          rw [← hout]
          intro c hc
          exact (List.mem_filter.mp hc).1⟩
      · exact ⟨rfl, fun out hout => by
          injection hout with hout
          rw [← hout]
          intro c hc
          exact (List.mem_filter.mp hc).1⟩

/-- Witness for C7: the allowlist `["a", "zz"]` names the absent column
`zz` of `numericFrame`, so analysis errors naming exactly `["zz"]`. -/
theorem allowlist_validation_witness :
    analyze_data numericFrame (some ["a", "zz"]) =
      .error (.missingNumericColumns ((["a", "zz"] : List String).filter
        (fun c => !numericFrame.cols.contains c))) :=
  (allowlist_validation numericFrame ["a", "zz"] rfl (by decide)).1 (by decide)

/-- Acceptance of `digits.isdigit() and 7 <= len(digits) <= 15` in terms
of the digit count and the absence of a plus, for lists whose members
are digits or `+` (the output of the phone character filter). -/
theorem phoneOk_iff_counts (l : List Char)
    (hl : ∀ c ∈ l, isAsciiDigit c = true ∨ c = '+') :
    phoneDigitsOk l = true ↔
      (l.contains '+' = false ∧ 7 ≤ l.countP isAsciiDigit ∧
        l.countP isAsciiDigit ≤ 15) := by
  unfold phoneDigitsOk
  simp only [Bool.and_eq_true, Bool.not_eq_true', List.isEmpty_eq_false,
    decide_eq_true_eq]
  constructor
  · rintro ⟨⟨⟨hne, hall⟩, h7⟩, h15⟩
    have hcnt : l.countP isAsciiDigit = l.length :=
      List.countP_eq_length.mpr (fun a ha => List.all_eq_true.mp hall a ha)
    have hnp : l.contains '+' = false := by
      by_contra hcon
      rw [Bool.not_eq_false] at hcon
      have hmem : ('+' : Char) ∈ l := by simpa using hcon
      have := List.all_eq_true.mp hall _ hmem
      exact absurd this (by decide)
    exact ⟨hnp, by omega, by omega⟩
  · rintro ⟨hnp, h7, h15⟩
    have hall : l.all isAsciiDigit = true := by
      rw [List.all_eq_true]
      intro c hc
      rcases hl c hc with h | rfl
      · exact h
      · have : l.contains '+' = true := by simpa using hc
        rw [hnp] at this
        cases this
    have hcnt : l.countP isAsciiDigit = l.length :=
      List.countP_eq_length.mpr (fun a ha => List.all_eq_true.mp hall a ha)
    refine ⟨⟨⟨?_, hall⟩, by omega⟩, by omega⟩
    exact List.length_pos.mp (by omega)

/-- C5 counterexample: `"12+34567"` keeps 7 digits (count in `[7,15]`),
so the claim accepts it, but the code rejects it because of the interior
`+`. -/
theorem phone_digit_count_mismatch :
    validate_phone (.str "12+34567") = false ∧ specPhoneValid "12+34567" = true :=
  ⟨by decide, by decide⟩

/-- C5 (amended): the phone validator keeps digits and every `+` sign;
a string is accepted iff every kept `+` is a single leading one AND the
kept digit count is between 7 and 15 inclusive (a non-leading `+` makes
the value invalid regardless of its digit count); non-string input is
always invalid. -/
theorem validate_phone_characterization :
    (∀ s : String, validate_phone (.str s) = true ↔
      (plusesOnlyLeading (keepPhoneChars (stripCore s.data)) = true ∧
        7 ≤ (keepPhoneChars (stripCore s.data)).countP isAsciiDigit ∧
        (keepPhoneChars (stripCore s.data)).countP isAsciiDigit ≤ 15)) ∧
    (∀ v : Value, (∀ t : String, v ≠ .str t) → validate_phone v = false) := by
  constructor
  · intro s
    have hl : ∀ c ∈ keepPhoneChars (stripCore s.data),
        isAsciiDigit c = true ∨ c = '+' := by
      intro c hc
      have h2 := (List.mem_filter.mp hc).2
      simpa using h2
    show phoneDigitsOk (phoneDigits (keepPhoneChars (stripCore s.data))) = true ↔ _
    cases hk : keepPhoneChars (stripCore s.data) with
    | nil => simp [phoneDigits, phoneDigitsOk, plusesOnlyLeading]
    | cons c r =>
      rw [hk] at hl
      by_cases hc : c = '+'
      · subst hc
        have hd : phoneDigits ('+' :: r) = r := by
          simp [phoneDigits]
        have hpl : plusesOnlyLeading ('+' :: r) = !r.contains '+' := by
          simp [plusesOnlyLeading]
        rw [hd, hpl,
          phoneOk_iff_counts r (fun x hx => hl x (List.mem_cons_of_mem _ hx))]
        have hplus : isAsciiDigit '+' = false := by decide
        have hcp : ('+' :: r).countP isAsciiDigit = r.countP isAsciiDigit := by
          rw [List.countP_cons, hplus]
          simp
        rw [hcp]
        constructor
        · rintro ⟨hnp, h7, h15⟩
          exact ⟨by rw [hnp]; rfl, h7, h15⟩
        · rintro ⟨hpl2, h7, h15⟩
          exact ⟨by rwa [Bool.not_eq_true'] at hpl2, h7, h15⟩
      · have hd : phoneDigits (c :: r) = c :: r := by
          simp [phoneDigits, hc]
        have hpl : plusesOnlyLeading (c :: r) = !(c :: r).contains '+' := by
          simp [plusesOnlyLeading, hc]
        rw [hd, hpl, phoneOk_iff_counts (c :: r) hl]
        constructor
        · rintro ⟨hnp, h7, h15⟩
          exact ⟨by rw [hnp]; rfl, h7, h15⟩
        · rintro ⟨hpl2, h7, h15⟩
          exact ⟨by rwa [Bool.not_eq_true'] at hpl2, h7, h15⟩
  · intro v hv
    cases v with
    | str t => exact absurd rfl (hv t)
    | num q => rfl
    | date t => rfl
    | null => rfl

/-- Witness for C5 (amended): a non-string value is invalid, and the
characterization instantiated at a formatted phone string. -/
theorem validate_phone_characterization_witness :
    validate_phone (.num 5) = false ∧
    (validate_phone (.str "+1 (234) 567-8901") = true ↔
      (plusesOnlyLeading (keepPhoneChars (stripCore ("+1 (234) 567-8901" : String).data)) = true ∧
        7 ≤ (keepPhoneChars (stripCore ("+1 (234) 567-8901" : String).data)).countP isAsciiDigit ∧
        (keepPhoneChars (stripCore ("+1 (234) 567-8901" : String).data)).countP isAsciiDigit ≤ 15)) :=
  ⟨validate_phone_characterization.2 (.num 5) (fun t h => Value.noConfusion h),
   validate_phone_characterization.1 "+1 (234) 567-8901"⟩

theorem lowerChar_of_upper (c : Char) (h : 65 ≤ c.toNat ∧ c.toNat ≤ 90) :
    (lowerChar c).toNat = c.toNat + 32 := by
  unfold lowerChar
  rw [dif_pos h]
  show (UInt32.ofNat (c.toNat + 32)).toNat = c.toNat + 32
  have h2 : (UInt32.ofNat (c.toNat + 32)).toNat = (c.toNat + 32) % 2 ^ 32 :=
    UInt32.toNat_ofNat _
  omega

theorem lowerChar_of_not_upper (c : Char) (h : ¬(65 ≤ c.toNat ∧ c.toNat ≤ 90)) :
    lowerChar c = c := by
  unfold lowerChar
  rw [dif_neg h]

theorem lowerChar_idem (c : Char) : lowerChar (lowerChar c) = lowerChar c := by
  by_cases h : 65 ≤ c.toNat ∧ c.toNat ≤ 90
  · have h1 := lowerChar_of_upper c h
    exact lowerChar_of_not_upper _ (by omega)
  · rw [lowerChar_of_not_upper c h]
    exact lowerChar_of_not_upper c h

theorem map_lowerChar_idem (l : List Char) :
    (l.map lowerChar).map lowerChar = l.map lowerChar := by
  rw [List.map_map]
  exact List.map_congr_left (fun c _ => lowerChar_idem c)

theorem not_ws_of_localChar (c : Char) (h : isLocalChar c = true) : isWs c = false := by
  by_contra hw
  rw [Bool.not_eq_false] at hw
  simp only [isWs, Bool.or_eq_true, decide_eq_true_eq] at hw
  rcases hw with ((((rfl | rfl) | rfl) | rfl) | rfl) | rfl <;> exact absurd h (by decide)

theorem not_ws_of_asciiLetter (c : Char) (h : isAsciiLetter c = true) :
    isWs c = false := by
  by_contra hw
  rw [Bool.not_eq_false] at hw
  simp only [isWs, Bool.or_eq_true, decide_eq_true_eq] at hw
  rcases hw with ((((rfl | rfl) | rfl) | rfl) | rfl) | rfl <;> exact absurd h (by decide)

/-- A string matching the email regex has a local character at its head
and an alphabetic character at its end, so stripping is the identity on
it. -/
theorem stripCore_of_emailMatch (l : List Char) (h : emailMatch l = true) :
    stripCore l = l := by
  unfold emailMatch at h
  split at h
  case h_2 => cases h
  case h_1 d heq =>
    rw [Bool.and_eq_true] at h
    obtain ⟨hlp, hdom⟩ := h
    have hsplit : l.takeWhile isLocalChar ++ '@' :: d = l := by
      rw [← heq]
      exact List.takeWhile_append_dropWhile isLocalChar l
    have hlpne : l.takeWhile isLocalChar ≠ [] := by simpa using hlp
    obtain ⟨c0, lp1, hlp0⟩ := List.exists_cons_of_ne_nil hlpne
    have hc0 : isLocalChar c0 = true := by
      apply List.mem_takeWhile_imp
      rw [hlp0]
      exact List.mem_cons_self c0 lp1
    unfold domainOk at hdom
    rw [Bool.and_eq_true] at hdom
    obtain ⟨htld, _⟩ := hdom
    have htln : 2 ≤ (d.reverse.takeWhile isAsciiLetter).length :=
      of_decide_eq_true htld
    obtain ⟨t0, tl1, ht0⟩ : ∃ t0 tl1, d.reverse.takeWhile isAsciiLetter = t0 :: tl1 := by
      cases hh : d.reverse.takeWhile isAsciiLetter with
      | nil => rw [hh] at htln; simp at htln
      | cons a b => exact ⟨a, b, rfl⟩
    have ht0a : isAsciiLetter t0 = true := by
      apply List.mem_takeWhile_imp
      rw [ht0]
      exact List.mem_cons_self t0 tl1
    have hl2 : l = c0 :: (lp1 ++ '@' :: d) := by
      rw [← hsplit, hlp0]
      rfl
    have h1 : l.dropWhile isWs = l := by
      rw [hl2, List.dropWhile_cons, not_ws_of_localChar c0 hc0]
      simp
    obtain ⟨W, hW⟩ : ∃ W, d.reverse.dropWhile isAsciiLetter = W := ⟨_, rfl⟩
    have hdrev : d.reverse = t0 :: (tl1 ++ W) := by
      conv_lhs => rw [← List.takeWhile_append_dropWhile isAsciiLetter d.reverse]
      rw [ht0, hW]
      rfl
    obtain ⟨Z, hZ⟩ : ∃ Z, l.reverse = t0 :: Z := by
      refine ⟨(tl1 ++ W) ++ '@' :: (l.takeWhile isLocalChar).reverse, ?_⟩
      conv_lhs => rw [← hsplit]
      rw [List.reverse_append, List.reverse_cons, hdrev]
      simp
    have h2 : l.reverse.dropWhile isWs = l.reverse := by
      rw [hZ, List.dropWhile_cons, not_ws_of_asciiLetter t0 ht0a]
      simp
    show ((l.dropWhile isWs).reverse.dropWhile isWs).reverse = l
    rw [h1, h2, List.reverse_reverse]

/-- C9: every email accepted by the validator, once normalized by
`fix_email` (trim + lowercase), validates again, and `fix_email` is
idempotent on such values. -/
theorem email_normalization_idempotent (s : String)
    (h : validate_email (.str s) = true) :
    (fix_email (.str s)).isSome = true ∧
    ∀ e : String, fix_email (.str s) = some e →
      validate_email (.str e) = true ∧ fix_email (.str e) = some e := by
  have hm : emailMatch ((stripCore s.data).map lowerChar) = true := h
  have hstrip : stripCore ((stripCore s.data).map lowerChar) =
      (stripCore s.data).map lowerChar :=
    stripCore_of_emailMatch _ hm
  have hval : validate_email (.str ⟨(stripCore s.data).map lowerChar⟩) = true := by
    show emailMatch ((stripCore ((stripCore s.data).map lowerChar)).map lowerChar) = true
    rw [hstrip, map_lowerChar_idem]
    exact hm
  have hfix : fix_email (.str s) = some ⟨(stripCore s.data).map lowerChar⟩ := by
    show (if validate_email (.str ⟨(stripCore s.data).map lowerChar⟩) = true
      then some (⟨(stripCore s.data).map lowerChar⟩ : String) else none) = _
    rw [if_pos hval]
  refine ⟨by rw [hfix]; rfl, ?_⟩
  intro e he
  rw [hfix] at he
  injection he with he
  subst he
  refine ⟨hval, ?_⟩
  show (if validate_email
      (.str ⟨(stripCore ((stripCore s.data).map lowerChar)).map lowerChar⟩) = true
    then some (⟨(stripCore ((stripCore s.data).map lowerChar)).map lowerChar⟩ : String)
    else none) = _
  rw [hstrip, map_lowerChar_idem, if_pos hval]

/-- Witness for C9 at the accepted email `" A@B.com"`. -/
theorem email_normalization_idempotent_witness :
    (fix_email (.str " A@B.com")).isSome = true ∧
    validate_email (.str "a@b.com") = true ∧
    fix_email (.str "a@b.com") = some "a@b.com" :=
  ⟨(email_normalization_idempotent " A@B.com" (by decide)).1,
   ((email_normalization_idempotent " A@B.com" (by decide)).2 "a@b.com" (by decide)).1,
   ((email_normalization_idempotent " A@B.com" (by decide)).2 "a@b.com" (by decide)).2⟩

end EtlPipeline
